import Mathlib

/-!
Verification development for the SkyTruth pelagos-data discontinuity detector
(`utils/disco-detect.py`).  The detector makes a single stateful pass over a
stream of vessel position records, keeps the previous record of the current
`mmsi` group, flags a record as discontinuous when the pair passes a time
gate and a distance test, and renders one of four output products.

The embedding below translates the Python source directly:

* a decoded row (`csv.DictReader` / newline JSON object) is an association
  list from field name to string value;
* `datetime.fromtimestamp(int(...))` differences are integer second
  differences, and the script's `td.seconds` is the normalised seconds
  component of a `timedelta` (`0 ≤ seconds < 86400`, whole days carried
  separately and discarded), i.e. the difference taken modulo 86400;
* the OGR distance call is an external capability (the geodesic library is
  out of scope), so the scan is parameterised by a total distance evaluator
  `dist : Record → Record → ℚ` standing for the real-valued
  `last_point.Distance(process_point)` under the assigned spatial reference;
* fallible steps return `Except`: a `KeyError` caught at the mmsi comparison
  makes `main` return 1, and an uncaught `KeyError`/`ValueError` on the
  timestamp aborts the process; both are non-zero-exit failures.
-/

namespace DiscoDetect

/-- A decoded input record: a dictionary from field name to string value.
Keys bound to Python `None` (the `DictReader` rest value of a short row) are
not represented; the rows considered here always carry string values. -/
abbrev Record := List (String × String)

/-- Dictionary access `row[k]`: `none` models a `KeyError`. -/
def rget (r : Record) (k : String) : Option String :=
  r.lookup k

/-- Digit run of a decimal literal, most significant digit first. -/
def parseNatDigits : List Char → Nat → Option Nat
  | [], n => some n
  | c :: cs, n => if c.isDigit then parseNatDigits cs (n * 10 + (c.toNat - 48)) else none

/-- Model of Python `int(...)` on the plain decimal strings that appear in the
inputs considered here: an optional leading minus sign followed by digits;
anything else raises `ValueError`, modelled as `none`. -/
def parseIntStr (s : String) : Option Int :=
  match s.data with
  | [] => none
  | '-' :: cs => if cs.isEmpty then none else (parseNatDigits cs 0).map (fun n => -(n : Int))
  | cs => (parseNatDigits cs 0).map (fun n => (n : Int))

/-- The integer timestamp of a record: `int(row['timestamp'])`; `none` models
the uncaught `KeyError` (missing field) or `ValueError` (unparseable). -/
def tsVal (r : Record) : Option Int :=
  (rget r "timestamp").bind parseIntStr

/-- The `seconds` component of the Python `timedelta` between the two
`datetime.fromtimestamp` values: the difference is normalised so that
`0 ≤ seconds < 86400` with whole days carried separately (and ignored by the
script), which for an integer second difference is reduction modulo 86400. -/
def tdSeconds (dt : Int) : Int :=
  dt % 86400

/-- Failure outcomes of one run.  `mmsiKeyError` is the `KeyError` caught at
the mmsi comparison (the script prints the rows and returns 1);
`fieldFault` is an uncaught exception (missing or unparseable timestamp, or a
flagged row lacking a schema field while being rendered).  Both terminate the
run with a non-zero exit status. -/
inductive ScanErr
  | mmsiKeyError
  | fieldFault
deriving DecidableEq

/-- Continuity check of the loop body, reached when `last_row` survived the
group-boundary comparison (same group, `rm` the mmsi string of the incoming
row): compare `td.seconds` against the time threshold and, when within it,
the evaluated distance against the distance threshold; a flagged row is
reported together with its mmsi string, and `last_row` always becomes the
incoming row. -/
def stepCont (dist : Record → Record → ℚ) (timeTh distTh : Int)
    (p r : Record) (rm : String) :
    Except ScanErr (Option Record × Option (String × Record)) :=
  match tsVal p, tsVal r with
  | some tp, some tr =>
    if tdSeconds (tr - tp) ≤ timeTh then
      if ((distTh : Int) : ℚ) ≤ dist p r then
        .ok (some r, some (rm, r))
      else
        .ok (some r, none)
    else
      .ok (some r, none)
  | _, _ => .error ScanErr.fieldFault

/-- One iteration of the scan loop (source lines 496-534): if `last_row` is
set and the mmsi values differ, `last_row` is discarded before evaluation,
so the incoming row starts a fresh group; if `last_row` is unset nothing is
evaluated; otherwise the continuity check runs.  In every non-error case the
incoming row becomes the new `last_row`. -/
def step (dist : Record → Record → ℚ) (timeTh distTh : Int)
    (last : Option Record) (r : Record) :
    Except ScanErr (Option Record × Option (String × Record)) :=
  match last with
  | none => .ok (some r, none)
  | some p =>
    match rget r "mmsi", rget p "mmsi" with
    | some rm, some pm =>
      if rm ≠ pm then .ok (some r, none)
      else stepCont dist timeTh distTh p r rm
    | _, _ => .error ScanErr.mmsiKeyError

/-- The scan loop over the remaining records, producing the flagged rows in
input order, each paired with its mmsi string. -/
def scanFrom (dist : Record → Record → ℚ) (timeTh distTh : Int) :
    Option Record → List Record → Except ScanErr (List (String × Record))
  | _, [] => .ok []
  | last, r :: rs =>
    match step dist timeTh distTh last r with
    | .error e => .error e
    | .ok (last', ev) =>
      match scanFrom dist timeTh distTh last' rs with
      | .error e => .error e
      | .ok evs =>
        .ok (match ev with
             | some e => e :: evs
             | none => evs)

/-- The frequency-mode count update (source lines 527-531): a dictionary from
mmsi to running count, set to 1 on first sight and incremented afterwards;
modelled as an insertion-ordered association list. -/
def bump (counts : List (String × Nat)) (m : String) : List (String × Nat) :=
  match counts.lookup m with
  | none => counts ++ [(m, 1)]
  | some _ => counts.map (fun kv => if kv.1 = m then (kv.1, kv.2 + 1) else kv)

/-- The `discontinuity_counts` dictionary produced by a completed scan: one
`bump` per flagged row, keyed by the mmsi string read in the loop. -/
def freqCounts (evs : List (String × Record)) : List (String × Nat) :=
  evs.foldl (fun c e => bump c e.1) []

/-- Total of all per-mmsi counts. -/
def sumVals (counts : List (String × Nat)) : Nat :=
  (counts.map Prod.snd).sum

/-- Count looked up for one mmsi, zero when the key is absent. -/
def lookupD (counts : List (String × Nat)) (m : String) : Nat :=
  (counts.lookup m).getD 0

/-- Comma join, as in `','.join(...)` (source lines 439, 483, 524). -/
def csvJoin (cells : List String) : String :=
  String.intercalate "," cells

/-- One output row of the csv products: the flagged row's value for every
schema field, comma joined; a missing field raises `KeyError` (`none`). -/
def renderCsvRow (fieldnames : List String) (r : Record) : Option String :=
  (fieldnames.mapM (fun k => rget r k)).map csvJoin

/-- Rendering of `json.dumps(row)` for a flat string-valued object,
simplified (no escaping of special characters inside names or values). -/
def jsonDump (r : Record) : String :=
  "\x7b" ++ String.intercalate ", " (r.map (fun kv => "\"" ++ kv.1 ++ "\": \"" ++ kv.2 ++ "\"")) ++ "\x7d"

/-- Frequency-product output (source lines 540-544): `csv.DictWriter` writes
its header row unconditionally, then one `mmsi,count` row per key. -/
def freqLines (counts : List (String × Nat)) : List String :=
  "mmsi,count" :: counts.map (fun kv => kv.1 ++ "," ++ toString kv.2)

/-- The lines written by one completed run for each output product: the csv
product starts with the schema row (written before the loop, line 483); the
row products write one line per flagged row; the frequency product writes its
header and the accumulated counts after the loop. -/
def outputLines (product : String) (fieldnames : List String)
    (evs : List (String × Record)) : Except ScanErr (List String) :=
  if product = "csv" then
    match evs.mapM (fun e => renderCsvRow fieldnames e.2) with
    | some rows => .ok (csvJoin fieldnames :: rows)
    | none => .error ScanErr.fieldFault
  else if product = "csv-no-schema" then
    match evs.mapM (fun e => renderCsvRow fieldnames e.2) with
    | some rows => .ok rows
    | none => .error ScanErr.fieldFault
  else if product = "newline" then
    .ok (evs.map (fun e => jsonDump e.2))
  else if product = "frequency" then
    .ok (freqLines (freqCounts evs))
  else
    .ok []

/-- Python `dict` insertion: overwrite the value when the key exists, append
the pair otherwise. -/
def dictInsert (r : Record) (k v : String) : Record :=
  match r.lookup k with
  | some _ => r.map (fun kv => if kv.1 = k then (k, v) else kv)
  | none => r ++ [(k, v)]

/-- A `csv.DictReader` data row: `dict(zip(fieldnames, row))`.  A row shorter
than the schema additionally binds the leftover names to the `None` rest
value and a longer one collects the extra cells under the rest key; neither
binding carries a string value and they are not represented (the rows used
here have exactly the schema's width). -/
def dictRow (fieldnames : List String) (cells : List String) : Record :=
  (List.zip fieldnames cells).foldl (fun d kv => dictInsert d kv.1 kv.2) []

/-- Iterating a Python string yields its characters; `csv.DictReader` accepts
any sequence as `fieldnames`, so a string schema supplies its one-character
substrings as the field names. -/
def strChars (s : String) : List String :=
  s.data.map (fun c => String.mk [c])

/-- Records produced for tabular input with an explicit schema (source lines
471-473): the schema reaches `csv.DictReader` as the comma-joined string
(line 438-439 joins a list schema back into a string), so the field names are
that string's characters, and every input line, the first included, is a data
row. -/
def tabularExplicitRecords (schema : String) (lines : List (List String)) : List Record :=
  lines.map (dictRow (strChars schema))

/-- The configuration consumed by one run, after CLI validation: time
threshold (seconds), distance threshold (spatial-reference units), the
skip-lines count, and the selected output product. -/
structure Config where
  timeThreshold : Int := 3600
  distanceThreshold : Int := 1
  skipLines : Int := 0
  outputProduct : String := "csv"

/-- The progress-reporting total (source lines 446-456): the input line
count, less the skipped lines, less the schema row when the schema is
derived from the first line.  This is the only consumer of the skip-lines
value. -/
def progTotal (cfg : Config) (schemaGiven : Bool) (lineCount : Int) : Int :=
  lineCount - cfg.skipLines - (if schemaGiven then 0 else 1)

/-- One full run over tabular input with the schema derived from the first
line: `csv.DictReader` consumes the first row as the field names, the scan
walks the remaining rows, and the selected product's lines are written.  An
`.ok` result is a run that finishes with exit status 0.  On empty input the
reader leaves the field names unset and the csv product faults joining them;
the other products write no data rows. -/
def runTabular (dist : Record → Record → ℚ) (cfg : Config)
    (lines : List (List String)) : Except ScanErr (List String) :=
  match lines with
  | [] =>
    if cfg.outputProduct = "csv" then .error ScanErr.fieldFault
    else outputLines cfg.outputProduct [] []
  | schema :: rest =>
    match scanFrom dist cfg.timeThreshold cfg.distanceThreshold none (rest.map (dictRow schema)) with
    | .error e => .error e
    | .ok evs => outputLines cfg.outputProduct schema evs

/-- The validated input-format selectors (source line 251). -/
def valid_input_file_formats : List String :=
  ["csv", "newline"]

/-- The two reader shapes the script can build: the newline-JSON reader and
the csv reader with an optional explicit schema string. -/
inductive Reader
  | jsonR
  | csvR (schema : Option String)

/-- Reader construction (source lines 468-478): the dispatch tests the format
selector against `'json'` — a value the validation never admits — then
`'csv'`, and otherwise raises `IOError`. -/
def makeReader (fmt : String) (schema : Option String) : Except String Reader :=
  if fmt = "json" then .ok Reader.jsonR
  else if fmt = "csv" then .ok (Reader.csvR schema)
  else .error "Could not determine input file format - valid formats are newline delimited JSON and CSV"

/-- Integer coordinate of a record, for the concrete axis-aligned inputs of
this development (zero when absent, which never occurs below). -/
def coordInt (r : Record) (k : String) : Int :=
  ((rget r k).bind parseIntStr).getD 0

/-- Distance evaluator used for the concrete inputs of this development: the
Chebyshev magnitude of the coordinate difference, which coincides with the
planar EPSG:4326 distance OGR computes whenever the two points share a
parallel or a meridian — true of every concrete point pair below. -/
def coordDist (p r : Record) : ℚ :=
  ((max (coordInt r "longitude" - coordInt p "longitude").natAbs
        (coordInt r "latitude" - coordInt p "latitude").natAbs : Nat) : ℚ)

/-- Adjacent same-group pair with a defective timestamp: both records carry
an mmsi, the values agree, and at least one timestamp is missing or
unparseable — the configuration under which the continuity check faults. -/
def sameGroupTsDefect (p r : Record) : Bool :=
  match rget p "mmsi", rget r "mmsi" with
  | some pm, some rm => pm = rm && ((tsVal p).isNone || (tsVal r).isNone)
  | _, _ => false

/-- Some adjacent pair of the list is a same-group pair with a defective
timestamp. -/
def adjBadTs : List Record → Bool
  | p :: r :: rs => sameGroupTsDefect p r || adjBadTs (r :: rs)
  | _ => false

/-- Record of group 1 at epoch second 0, at the origin. -/
def recT0 : Record := [("mmsi", "1"), ("timestamp", "0"), ("longitude", "0"), ("latitude", "0")]

/-- Record of group 1 at second 1800, five degrees east of `recT0`. -/
def recT1800 : Record := [("mmsi", "1"), ("timestamp", "1800"), ("longitude", "5"), ("latitude", "0")]

/-- Record of group 1 exactly one day after `recT0`, five degrees east. -/
def recT86400 : Record := [("mmsi", "1"), ("timestamp", "86400"), ("longitude", "5"), ("latitude", "0")]

/-- Record of group 2 at second 0, fifty degrees east. -/
def recM2 : Record := [("mmsi", "2"), ("timestamp", "0"), ("longitude", "50"), ("latitude", "0")]

/-- Record lacking the `mmsi` field. -/
def recNoM : Record := [("timestamp", "5"), ("longitude", "0"), ("latitude", "0")]

/-- Record of group 1 lacking the `timestamp` field. -/
def recNoT : Record := [("mmsi", "1"), ("longitude", "0"), ("latitude", "0")]

/-- Whatever a successful iteration returns, the new `last_row` is the row
just processed (source line 534 runs unconditionally). -/
lemma step_last_eq {dist : Record → Record → ℚ} {timeTh distTh : Int}
    {last : Option Record} {r : Record}
    {out : Option Record × Option (String × Record)}
    (h : step dist timeTh distTh last r = .ok out) : out.1 = some r := by
  unfold step stepCont at h
  repeat' split at h
  all_goals first
    | (cases h; rfl)
    | simp_all

/-- A scan starting with no predecessor first records the head as `last_row`
without evaluating it, then continues from it. -/
lemma scanFrom_none_cons (dist : Record → Record → ℚ) (timeTh distTh : Int)
    (r : Record) (rs : List Record) :
    scanFrom dist timeTh distTh none (r :: rs) = scanFrom dist timeTh distTh (some r) rs := by
  have h0 : scanFrom dist timeTh distTh none (r :: rs) =
      match scanFrom dist timeTh distTh (some r) rs with
      | .error e => .error e
      | .ok evs => .ok evs := rfl
  rw [h0]
  cases scanFrom dist timeTh distTh (some r) rs <;> rfl

/-- Unfolding of association-list lookup at a matching head. -/
lemma lookup_cons_self {β : Type} (k : String) (b : β) (c : List (String × β)) :
    ((k, b) :: c).lookup k = some b := by
  simp [List.lookup]

/-- Unfolding of association-list lookup at a non-matching head. -/
lemma lookup_cons_ne {β : Type} {m k : String} (b : β) (c : List (String × β))
    (h : m ≠ k) : ((k, b) :: c).lookup m = c.lookup m := by
  have hbe : (m == k) = false := by simpa using h
  simp [List.lookup, hbe]

/-- Unfolding of the per-key increment map at a cons cell. -/
lemma map_incr_cons (k : String) (v : Nat) (c : List (String × Nat)) (m : String) :
    ((k, v) :: c).map (fun kv => if kv.1 = m then (kv.1, kv.2 + 1) else kv)
      = (if k = m then (k, v + 1) else (k, v))
          :: c.map (fun kv => if kv.1 = m then (kv.1, kv.2 + 1) else kv) := by
  by_cases hk : k = m <;> simp [hk]

/-- Lookup distributes over append, preferring the left list. -/
lemma lookup_append {β : Type} (c d : List (String × β)) (m : String) :
    (c ++ d).lookup m = (c.lookup m).or (d.lookup m) := by
  induction c with
  | nil => rfl
  | cons kv c ih =>
    obtain ⟨k, v⟩ := kv
    by_cases hk : m = k
    · subst hk
      rw [List.cons_append, lookup_cons_self, lookup_cons_self]
      rfl
    · rw [List.cons_append, lookup_cons_ne v _ hk, lookup_cons_ne v c hk, ih]

/-- A key that looks up to nothing heads no pair of the list. -/
lemma lookup_none_keys {c : List (String × Nat)} {m : String}
    (h : c.lookup m = none) : ∀ kv ∈ c, kv.1 ≠ m := by
  induction c with
  | nil => simp
  | cons kv c ih =>
    obtain ⟨k, v⟩ := kv
    intro kv2 hmem
    by_cases hk : m = k
    · subst hk
      rw [lookup_cons_self] at h
      cases h
    · rw [lookup_cons_ne v c hk] at h
      rcases List.mem_cons.mp hmem with rfl | hmem2
      · exact fun he => hk he.symm
      · exact ih h kv2 hmem2

/-- An absent key looks up to nothing. -/
lemma lookup_none_of_not_mem {β : Type} {c : List (String × β)} {m : String}
    (h : m ∉ c.map Prod.fst) : c.lookup m = none := by
  induction c with
  | nil => rfl
  | cons kv c ih =>
    obtain ⟨k, v⟩ := kv
    simp only [List.map_cons, List.mem_cons, not_or] at h
    rw [lookup_cons_ne v c h.1]
    exact ih h.2

/-- Incrementing the entries of an absent key changes nothing. -/
lemma map_incr_id {c : List (String × Nat)} {m : String}
    (h : ∀ kv ∈ c, kv.1 ≠ m) :
    c.map (fun kv => if kv.1 = m then (kv.1, kv.2 + 1) else kv) = c := by
  induction c with
  | nil => rfl
  | cons kv c ih =>
    have h1 : kv.1 ≠ m := h kv (List.mem_cons_self kv c)
    simp only [List.map_cons, if_neg h1, List.cons.injEq, true_and]
    exact ih (fun kv2 hmem => h kv2 (List.mem_cons_of_mem kv hmem))

/-- One `bump` preserves distinctness of the keys. -/
lemma bump_keys_nodup {c : List (String × Nat)} {m : String}
    (h : (c.map Prod.fst).Nodup) : ((bump c m).map Prod.fst).Nodup := by
  unfold bump
  cases hl : c.lookup m with
  | none =>
    have hne : m ∉ c.map Prod.fst := by
      intro hmem
      obtain ⟨kv, hkv, hfst⟩ := List.mem_map.mp hmem
      exact lookup_none_keys hl kv hkv hfst
    rw [List.map_append]
    refine List.Nodup.append h (List.nodup_singleton m) ?_
    intro a ha hb
    simp only [List.map_cons, List.map_nil, List.mem_singleton] at hb
    exact hne (hb ▸ ha)
  | some v =>
    have hkeys : ((c.map (fun kv => if kv.1 = m then (kv.1, kv.2 + 1) else kv)).map Prod.fst)
        = c.map Prod.fst := by
      rw [List.map_map]
      apply List.map_congr_left
      intro kv _
      by_cases hkv : kv.1 = m <;> simp [hkv]
    rw [hkeys]
    exact h

/-- Incrementing a present key (keys distinct) adds one to the sum. -/
lemma sum_map_incr {c : List (String × Nat)} {m : String}
    (hmem : m ∈ c.map Prod.fst) (h : (c.map Prod.fst).Nodup) :
    sumVals (c.map (fun kv => if kv.1 = m then (kv.1, kv.2 + 1) else kv)) = sumVals c + 1 := by
  induction c with
  | nil => simp at hmem
  | cons kv c ih =>
    obtain ⟨k, v⟩ := kv
    rw [List.map_cons] at h hmem
    have hnod := List.nodup_cons.mp h
    rw [map_incr_cons]
    by_cases hk : k = m
    · rw [if_pos hk]
      subst hk
      have hrest : ∀ kv2 ∈ c, kv2.1 ≠ k := by
        intro kv2 hm2 he
        exact hnod.1 (List.mem_map.mpr ⟨kv2, hm2, he⟩)
      rw [map_incr_id hrest]
      simp only [sumVals, List.map_cons, List.sum_cons]
      omega
    · rw [if_neg hk]
      have hmem2 : m ∈ c.map Prod.fst := by
        rcases List.mem_cons.mp hmem with h1 | h1
        · exact absurd h1.symm hk
        · exact h1
      have hih := ih hmem2 hnod.2
      simp only [sumVals, List.map_cons, List.sum_cons] at hih ⊢
      omega

/-- Incrementing a present key adds one to its looked-up value. -/
lemma lookup_map_incr_self {c : List (String × Nat)} {m : String} {v : Nat}
    (hl : c.lookup m = some v) :
    (c.map (fun kv => if kv.1 = m then (kv.1, kv.2 + 1) else kv)).lookup m = some (v + 1) := by
  induction c with
  | nil => cases hl
  | cons kv c ih =>
    obtain ⟨k, v2⟩ := kv
    rw [map_incr_cons]
    by_cases hk : m = k
    · subst hk
      rw [lookup_cons_self] at hl
      cases hl
      rw [if_pos rfl]
      exact lookup_cons_self m (v + 1) _
    · rw [lookup_cons_ne v2 c hk] at hl
      rw [if_neg (fun he => hk he.symm)]
      rw [lookup_cons_ne v2 _ hk]
      exact ih hl

/-- Incrementing one key leaves every other key's lookup unchanged. -/
lemma lookup_map_incr_other {c : List (String × Nat)} {m m2 : String}
    (hne : m2 ≠ m) :
    (c.map (fun kv => if kv.1 = m then (kv.1, kv.2 + 1) else kv)).lookup m2 = c.lookup m2 := by
  induction c with
  | nil => rfl
  | cons kv c ih =>
    obtain ⟨k, v⟩ := kv
    rw [map_incr_cons]
    by_cases hk : k = m
    · rw [if_pos hk]
      subst hk
      rw [lookup_cons_ne (v + 1) _ hne, lookup_cons_ne v c hne]
      exact ih
    · rw [if_neg hk]
      by_cases h2 : m2 = k
      · subst h2
        rw [lookup_cons_self, lookup_cons_self]
      · rw [lookup_cons_ne v _ h2, lookup_cons_ne v c h2]
        exact ih

/-- One `bump` raises the total count by exactly one (keys distinct). -/
lemma bump_sumVals {c : List (String × Nat)} {m : String}
    (h : (c.map Prod.fst).Nodup) : sumVals (bump c m) = sumVals c + 1 := by
  unfold bump
  cases hl : c.lookup m with
  | none => simp [sumVals]
  | some v =>
    have hmem : m ∈ c.map Prod.fst := by
      by_contra hmem
      rw [lookup_none_of_not_mem hmem] at hl
      cases hl
    exact sum_map_incr hmem h

/-- One `bump` raises the bumped key's count by exactly one. -/
lemma bump_lookupD_same {c : List (String × Nat)} {m : String} :
    lookupD (bump c m) m = lookupD c m + 1 := by
  unfold bump
  cases hl : c.lookup m with
  | none =>
    rw [lookupD, lookupD, lookup_append, hl]
    simp [Option.or, lookup_cons_self m 1 []]
  | some v =>
    rw [lookupD, lookupD, lookup_map_incr_self hl, hl]
    rfl

/-- One `bump` leaves every other key's count unchanged. -/
lemma bump_lookupD_other {c : List (String × Nat)} {m m2 : String}
    (hne : m2 ≠ m) : lookupD (bump c m) m2 = lookupD c m2 := by
  unfold bump
  cases c.lookup m with
  | none =>
    rw [lookupD, lookupD, lookup_append]
    have : ([(m, 1)] : List (String × Nat)).lookup m2 = none := by
      rw [lookup_cons_ne 1 [] hne]
      rfl
    rw [this]
    cases (c.lookup m2) <;> rfl
  | some v =>
    rw [lookupD, lookupD, lookup_map_incr_other hne]

/-- Folding `bump` over the flagged mmsi strings: keys stay distinct, the
total grows by the number of strings, and each key's count grows by its
number of occurrences. -/
lemma freq_fold_inv (ms : List String) :
    ∀ c : List (String × Nat), (c.map Prod.fst).Nodup →
      ((ms.foldl bump c).map Prod.fst).Nodup
      ∧ sumVals (ms.foldl bump c) = sumVals c + ms.length
      ∧ ∀ m, lookupD (ms.foldl bump c) m = lookupD c m + ms.countP (fun x => x == m) := by
  induction ms with
  | nil => intro c hc; simpa using hc
  | cons m0 ms ih =>
    intro c hc
    have h1 := bump_keys_nodup (m := m0) hc
    obtain ⟨ha, hb, hd⟩ := ih (bump c m0) h1
    rw [List.foldl_cons]
    refine ⟨ha, ?_, ?_⟩
    · have h2 := bump_sumVals (m := m0) hc
      have h3 : (m0 :: ms).length = ms.length + 1 := rfl
      omega
    · intro m
      rw [hd m, List.countP_cons]
      by_cases hm : m0 = m
      · subst hm
        rw [bump_lookupD_same]
        simp only [beq_self_eq_true, if_pos]
        omega
      · rw [bump_lookupD_other (Ne.symm hm)]
        have : (m0 == m) = false := by
          simpa using hm
        simp [this]

/-- A failing iteration aborts the whole scan. -/
lemma scanFrom_cons_err {dist : Record → Record → ℚ} {timeTh distTh : Int}
    {last : Option Record} {r : Record} {rs : List Record} {e : ScanErr}
    (h : step dist timeTh distTh last r = .error e) :
    scanFrom dist timeTh distTh last (r :: rs) = .error e := by
  simp only [scanFrom, h]

/-- A successful iteration leaves the scan's success exactly that of the
rest of the scan, continued from the new state. -/
lemma scanFrom_cons_isOk {dist : Record → Record → ℚ} {timeTh distTh : Int}
    {last : Option Record} {r : Record} {rs : List Record}
    {last' : Option Record} {ev : Option (String × Record)}
    (h : step dist timeTh distTh last r = .ok (last', ev)) :
    (scanFrom dist timeTh distTh last (r :: rs)).isOk
      = (scanFrom dist timeTh distTh last' rs).isOk := by
  simp only [scanFrom, h]
  cases scanFrom dist timeTh distTh last' rs with
  | error e => rfl
  | ok evs => cases ev <;> rfl

/-- With a predecessor in state, a record somewhere in the remainder that
lacks its mmsi field always aborts the scan: the comparison at source line
498 reads both mmsi values as soon as the defective record or its successor
is processed. -/
lemma scanFrom_err_mmsi_mem (dist : Record → Record → ℚ) (timeTh distTh : Int) :
    ∀ (l : List Record) (p : Record), (∃ r ∈ l, rget r "mmsi" = none) →
      (scanFrom dist timeTh distTh (some p) l).isOk = false := by
  intro l
  induction l with
  | nil =>
    intro p h
    simp at h
  | cons r rs ih =>
    intro p h
    by_cases hr : rget r "mmsi" = none
    · have hstep : step dist timeTh distTh (some p) r = .error ScanErr.mmsiKeyError := by
        cases hp : rget p "mmsi" <;> simp [step, hr, hp]
      rw [scanFrom_cons_err hstep]
      rfl
    · have hmem : ∃ r2 ∈ rs, rget r2 "mmsi" = none := by
        obtain ⟨r2, hmem2, hnone⟩ := h
        rcases List.mem_cons.mp hmem2 with rfl | h2
        · exact absurd hnone hr
        · exact ⟨r2, h2, hnone⟩
      cases hs : step dist timeTh distTh (some p) r with
      | error e =>
        rw [scanFrom_cons_err hs]
        rfl
      | ok out =>
        obtain ⟨last', ev⟩ := out
        have hlast : last' = some r := step_last_eq hs
        subst hlast
        rw [scanFrom_cons_isOk hs]
        exact ih r hmem

/-- A predecessor record lacking its mmsi field aborts the scan at the very
next record, whatever that record is. -/
lemma scanFrom_err_mmsi_state (dist : Record → Record → ℚ) (timeTh distTh : Int)
    (p : Record) (hp : rget p "mmsi" = none) (r : Record) (rs : List Record) :
    (scanFrom dist timeTh distTh (some p) (r :: rs)).isOk = false := by
  have hstep : step dist timeTh distTh (some p) r = .error ScanErr.mmsiKeyError := by
    cases hr : rget r "mmsi" <;> simp [step, hr, hp]
  rw [scanFrom_cons_err hstep]
  rfl

/-- An adjacent same-group pair with a missing or unparseable timestamp
always aborts the scan: when that pair is reached, the continuity check
reads both timestamps and faults. -/
lemma scanFrom_err_ts (dist : Record → Record → ℚ) (timeTh distTh : Int) :
    ∀ (l : List Record) (p : Record), adjBadTs (p :: l) = true →
      (scanFrom dist timeTh distTh (some p) l).isOk = false := by
  intro l
  induction l with
  | nil =>
    intro p h
    simp [adjBadTs] at h
  | cons r rs ih =>
    intro p h
    simp only [adjBadTs, Bool.or_eq_true] at h
    rcases h with h1 | h2
    · unfold sameGroupTsDefect at h1
      cases hpm : rget p "mmsi" with
      | none =>
        rw [hpm] at h1
        simp at h1
      | some pm =>
        cases hrm : rget r "mmsi" with
        | none =>
          rw [hpm, hrm] at h1
          simp at h1
        | some rm =>
          rw [hpm, hrm] at h1
          simp only [Bool.and_eq_true, decide_eq_true_eq, Bool.or_eq_true,
            Option.isNone_iff_eq_none] at h1
          obtain ⟨heq, hdef⟩ := h1
          have hstep : step dist timeTh distTh (some p) r = .error ScanErr.fieldFault := by
            rcases hdef with hd | hd
            · cases htr : tsVal r <;> simp [step, stepCont, hrm, hpm, heq, hd, htr]
            · cases htp : tsVal p <;> simp [step, stepCont, hrm, hpm, heq, hd, htp]
          rw [scanFrom_cons_err hstep]
          rfl
    · cases hs : step dist timeTh distTh (some p) r with
      | error e =>
        rw [scanFrom_cons_err hs]
        rfl
      | ok out =>
        obtain ⟨last', ev⟩ := out
        have hlast : last' = some r := step_last_eq hs
        subst hlast
        rw [scanFrom_cons_isOk hs]
        exact ih r h2

/-- Claim C1 (code defect): the spec requires that a pair whose whole-second
time gap `Δt = |timestamp(r) − timestamp(previous)|` exceeds the time
threshold is never flagged, and the script's own usage text describes the
threshold as the "number of seconds allowed between points"; but the
comparison at source line 512 reads `td.seconds` — the day-normalised
seconds component of the `timedelta`, not the whole gap — so a same-group pair
exactly one day apart has `td.seconds = 0`, passes the time gate, and is
flagged once the distance qualifies.  Here `Δt = 86400 > 3600` and the scan
still emits the event. -/
theorem C1_day_wrapped_gap_is_flagged :
    (86400 : Int) - 0 > 3600
    ∧ tdSeconds (86400 - 0) = 0
    ∧ step coordDist 3600 1 (some recT0) recT86400
        = .ok (some recT86400, some ("1", recT86400)) :=
  ⟨by decide, by decide, rfl⟩

/-- Claim C2: for consecutive same-group records in input order (the spec
assumes records pre-sorted by time within a group, so `tp ≤ tr`), when the
whole-second gap is within the time threshold and the evaluated distance
reaches the distance threshold, the scan emits exactly one event, attributed
to the later record, and continues from that record. -/
theorem C2_pair_within_thresholds_flagged
    (dist : Record → Record → ℚ) (timeTh distTh : Int) (p r : Record)
    (m : String) (tp tr : Int) (rs : List Record)
    (hpm : rget p "mmsi" = some m) (hrm : rget r "mmsi" = some m)
    (htp : tsVal p = some tp) (htr : tsVal r = some tr)
    (hord : tp ≤ tr) (htime : tr - tp ≤ timeTh)
    (hdist : ((distTh : Int) : ℚ) ≤ dist p r) :
    scanFrom dist timeTh distTh (some p) (r :: rs)
      = Except.map (fun evs => (m, r) :: evs) (scanFrom dist timeTh distTh (some r) rs) := by
  have htd : tdSeconds (tr - tp) ≤ timeTh := by
    unfold tdSeconds
    omega
  have hstep : step dist timeTh distTh (some p) r = .ok (some r, some (m, r)) := by
    simp [step, stepCont, hpm, hrm, htp, htr, htd, hdist]
  simp only [scanFrom, hstep]
  cases scanFrom dist timeTh distTh (some r) rs <;> rfl

/-- Witness for claim C2 at a concrete input: group 1, gap 1800 s ≤ 3600 s,
distance 5 ≥ 1, so the later record is flagged. -/
theorem C2_pair_within_thresholds_flagged_witness :
    scanFrom coordDist 3600 1 (some recT0) [recT1800] = .ok [("1", recT1800)] := by
  have h := C2_pair_within_thresholds_flagged coordDist 3600 1 recT0 recT1800 "1" 0 1800 []
    rfl rfl rfl rfl (by decide) (by decide) (by decide)
  exact h.trans rfl

/-- Claim C3 (code defect): the validation admits the input-format selector
`newline` (source line 251), yet the reader dispatch at lines 468-478 tests
the selector against `json` — a value the validation never admits — so the
admitted selector falls through to the `IOError`, contradicting both the
claim and the error message's own wording. -/
theorem C3_valid_newline_selector_faults :
    "newline" ∈ valid_input_file_formats
    ∧ makeReader "newline" none
        = .error "Could not determine input file format - valid formats are newline delimited JSON and CSV" :=
  ⟨by decide, rfl⟩

/-- Claim C4 (code defect): an explicit schema reaches `csv.DictReader` as
the comma-joined string (source lines 438-439, 473), and iterating that
string yields its characters, so the produced record's keys are
one-character strings — `mmsi` is not among them — although the first input
line is, as claimed, treated as data. -/
theorem C4_explicit_schema_yields_char_fields :
    (tabularExplicitRecords (csvJoin ["mmsi", "timestamp"]) [["123", "456"]]).length = 1
    ∧ rget (dictRow (strChars (csvJoin ["mmsi", "timestamp"])) ["123", "456"]) "mmsi" = none
    ∧ (dictRow (strChars (csvJoin ["mmsi", "timestamp"])) ["123", "456"]).all
        (fun kv => kv.1.length == 1) = true :=
  ⟨by decide, by decide, by decide⟩

/-- Claim C5: when the vessel identifier changes between the previous and
the incoming record, the iteration discards the predecessor and emits
nothing while the incoming record becomes the new state; and a
single-record stream emits nothing. -/
theorem C5_group_change_and_singletons_never_flag
    (dist : Record → Record → ℚ) (timeTh distTh : Int) :
    (∀ (p r : Record) (pm rm : String), rget p "mmsi" = some pm →
        rget r "mmsi" = some rm → pm ≠ rm →
        step dist timeTh distTh (some p) r = .ok (some r, none))
    ∧ (∀ r : Record, scanFrom dist timeTh distTh none [r] = .ok []) := by
  constructor
  · intro p r pm rm hp hr hne
    have hne2 : rm ≠ pm := fun he => hne he.symm
    simp [step, hp, hr, hne2]
  · intro r
    rfl

/-- Witness for claim C5: a group change onto a record that would satisfy
both thresholds emits nothing, and a singleton scan emits nothing. -/
theorem C5_group_change_and_singletons_never_flag_witness :
    step coordDist 3600 1 (some recT0) recM2 = .ok (some recM2, none)
    ∧ scanFrom coordDist 3600 1 none [recT0] = .ok [] :=
  ⟨(C5_group_change_and_singletons_never_flag coordDist 3600 1).1 recT0 recM2 "1" "2"
      rfl rfl (by decide),
   (C5_group_change_and_singletons_never_flag coordDist 3600 1).2 recT0⟩

/-- Claim C6: the flag decision is taken before the output dispatch, so for
one completed scan the frequency product's total equals the number of rows
the row products would have written, and each identifier's count equals the
number of its flagged rows. -/
theorem C6_frequency_counts_match_row_events
    (dist : Record → Record → ℚ) (timeTh distTh : Int)
    (records : List Record) (evs : List (String × Record))
    (h : scanFrom dist timeTh distTh none records = .ok evs) :
    sumVals (freqCounts evs) = evs.length
    ∧ (∀ m, lookupD (freqCounts evs) m = evs.countP (fun e => e.1 == m))
    ∧ (evs.map (fun e => jsonDump e.2)).length = evs.length := by
  have hfold : freqCounts evs = (evs.map Prod.fst).foldl bump [] := by
    rw [List.foldl_map]
    rfl
  obtain ⟨-, hb, hd⟩ := freq_fold_inv (evs.map Prod.fst) [] (by simp)
  refine ⟨?_, ?_, by simp⟩
  · rw [hfold, hb]
    simp [sumVals]
  · intro m
    rw [hfold, hd m, List.countP_map]
    have h0 : lookupD [] m = 0 := rfl
    rw [h0, Nat.zero_add]
    rfl

/-- Witness for claim C6 at a concrete two-record input with one flagged
row: the frequency total is that row count. -/
theorem C6_frequency_counts_match_row_events_witness :
    sumVals (freqCounts [("1", recT1800)]) = [("1", recT1800)].length :=
  (C6_frequency_counts_match_row_events coordDist 3600 1 [recT0, recT1800]
    [("1", recT1800)] rfl).1

/-- Claim C7 counterexample: the claim demands failure for every position
of a record missing `mmsi` or `timestamp`, but a run whose single data row
lacks the mmsi field (the schema has no such column) completes with exit
status 0 and empty output — the defective record is never compared, so no
field access faults. -/
theorem C7_defect_position_counterexample :
    rget (dictRow ["timestamp", "longitude", "latitude"] ["0", "0", "0"]) "mmsi" = none
    ∧ runTabular coordDist ⟨3600, 1, 0, "csv-no-schema"⟩
        [["timestamp", "longitude", "latitude"], ["0", "0", "0"]] = .ok [] :=
  ⟨by decide, rfl⟩

/-- Claim C7 as amended: a missing mmsi is fatal whenever the stream holds
at least two records (the comparison at line 498 then reads it), and a
missing or unparseable timestamp is fatal whenever its record is adjacent
to a same-group record (the continuity check then reads it); only a
defective record that is never compared escapes. -/
theorem C7_defect_fatal_when_compared
    (dist : Record → Record → ℚ) (timeTh distTh : Int) (records : List Record) :
    (2 ≤ records.length → (∃ r ∈ records, rget r "mmsi" = none) →
      (scanFrom dist timeTh distTh none records).isOk = false)
    ∧ (adjBadTs records = true →
      (scanFrom dist timeTh distTh none records).isOk = false) := by
  constructor
  · intro hlen hex
    cases records with
    | nil => simp at hlen
    | cons r1 rs1 =>
      cases rs1 with
      | nil => simp at hlen
      | cons r2 rs =>
        rw [scanFrom_none_cons]
        by_cases h1 : rget r1 "mmsi" = none
        · exact scanFrom_err_mmsi_state dist timeTh distTh r1 h1 r2 rs
        · obtain ⟨r, hmem, hnone⟩ := hex
          rcases List.mem_cons.mp hmem with rfl | h2
          · exact absurd hnone h1
          · exact scanFrom_err_mmsi_mem dist timeTh distTh (r2 :: rs) r1 ⟨r, h2, hnone⟩
  · intro hbad
    cases records with
    | nil => simp [adjBadTs] at hbad
    | cons r1 rs1 =>
      cases rs1 with
      | nil => simp [adjBadTs] at hbad
      | cons r2 rs =>
        rw [scanFrom_none_cons]
        exact scanFrom_err_ts dist timeTh distTh (r2 :: rs) r1 hbad

/-- Witness for the amended claim C7 at concrete inputs: a two-record
stream whose first record lacks mmsi fails, and a same-group pair whose
second record lacks its timestamp fails. -/
theorem C7_defect_fatal_when_compared_witness :
    (scanFrom coordDist 3600 1 none [recNoM, recT0]).isOk = false
    ∧ (scanFrom coordDist 3600 1 none [recT0, recNoT]).isOk = false :=
  ⟨(C7_defect_fatal_when_compared coordDist 3600 1 [recNoM, recT0]).1 (by decide)
      ⟨recNoM, List.mem_cons_self _ _, rfl⟩,
   (C7_defect_fatal_when_compared coordDist 3600 1 [recT0, recNoT]).2 (by decide)⟩

/-- Claim C8: after every successful iteration the scanner's previous-record
state is exactly the record just processed, flagged or not, so every
comparison is against the immediate predecessor. -/
theorem C8_previous_is_record_just_processed
    (dist : Record → Record → ℚ) (timeTh distTh : Int)
    (last : Option Record) (r : Record)
    (out : Option Record × Option (String × Record))
    (h : step dist timeTh distTh last r = .ok out) :
    out.1 = some r :=
  step_last_eq h

/-- Witness for claim C8 at a concrete iteration. -/
theorem C8_previous_is_record_just_processed_witness :
    ((some recT0, (none : Option (String × Record))) :
        Option Record × Option (String × Record)).1 = some recT0 :=
  C8_previous_is_record_just_processed coordDist 3600 1 none recT0 (some recT0, none) rfl

/-- Claim C9 counterexample: on a schema-row-only tabular input the
frequency product's output is not empty — `csv.DictWriter.writeheader`
(source line 542) writes the `mmsi,count` header unconditionally. -/
theorem C9_frequency_header_counterexample :
    runTabular coordDist ⟨3600, 1, 0, "frequency"⟩
        [["mmsi", "timestamp", "longitude", "latitude"]] = .ok ["mmsi,count"]
    ∧ (["mmsi,count"] : List String) ≠ ([] : List String) :=
  ⟨rfl, by decide⟩

/-- Claim C9 as amended: a schema-row-only tabular run succeeds (exit 0)
with exactly the header line for the csv product, empty output for the
csv-no-schema and newline products, and exactly the `mmsi,count` header
line for the frequency product. -/
theorem C9_schema_only_run_outputs
    (dist : Record → Record → ℚ) (timeTh distTh skip : Int) (schema : List String) :
    runTabular dist ⟨timeTh, distTh, skip, "csv"⟩ [schema] = .ok [csvJoin schema]
    ∧ runTabular dist ⟨timeTh, distTh, skip, "csv-no-schema"⟩ [schema] = .ok []
    ∧ runTabular dist ⟨timeTh, distTh, skip, "newline"⟩ [schema] = .ok []
    ∧ runTabular dist ⟨timeTh, distTh, skip, "frequency"⟩ [schema] = .ok ["mmsi,count"] :=
  ⟨rfl, rfl, rfl, rfl⟩

/-- Claim C10: the skip-lines value is consumed only by the progress total
(source lines 446-456); the reader and scan never see it, so two runs that
differ only in that value produce identical output, for every product and
every input, while the progress total does change with it. -/
theorem C10_skip_lines_have_no_effect_on_output
    (dist : Record → Record → ℚ) (cfg : Config) (n : Int) (lines : List (List String)) :
    runTabular dist { cfg with skipLines := n } lines = runTabular dist cfg lines
    ∧ ∀ (schemaGiven : Bool) (lineCount : Int),
        progTotal { cfg with skipLines := n } schemaGiven lineCount
          = lineCount - n - (if schemaGiven then 0 else 1) :=
  ⟨rfl, fun _ _ => rfl⟩

end DiscoDetect
